import Mathlib

/-!
Verification development for the myrientDL bulk downloader.

This file shallowly embeds the parts of the Python source that the checked
properties talk about:

* `src/myrientDL/downloader.py` — `TokenBucket` and `DownloadManager`
  (`_download_file_impl`, `_download_with_retry`);
* `src/myrientDL/crawler.py` — size parsing, console/region classification
  and the record constructed by `_parse_directory_listing`;
* `src/myrientDL/database.py` + the crawl loop of `cli.py` — `add_game_file`,
  `update_game_file` and the crawl-time upsert;
* `src/myrientDL/models.py` — `GameFile` and its `formatted_size` property.

Modelling conventions, used throughout:

* byte strings are `List Nat`; the filesystem is an association list from
  path to content; the catalog is a list of rows keyed by `url`;
* Python `float` arithmetic is modelled by exact rationals (`ℚ`).  Every
  concrete value appearing in a theorem below is exactly representable in
  binary floating point, so the model agrees with CPython on all of them;
* the SHA-256 hex digest is a parameter `H : List Nat → String` of the
  download engine: the digest of a `hashlib` hasher is a pure function of
  the byte sequence fed to it, and the development tracks that byte
  sequence exactly;
* wall-clock instants (`time.monotonic`, `time.time`) are rationals
  supplied as explicit arguments.
-/

namespace MyrientDL

/-- File and stream contents as sequences of byte values. -/
abbrev ByteSeq := List Nat

/-- A small filesystem model: association list from path to file content. -/
abbrev FS := List (String × ByteSeq)

/-- Content of the file at path `p`, if it exists. -/
def fsLookup (fs : FS) (p : String) : Option ByteSeq :=
  match fs with
  | [] => none
  | (q, c) :: rest => if q = p then some c else fsLookup rest p

/-- Create or overwrite the file at path `p` with content `c`. -/
def fsWrite (fs : FS) (p : String) (c : ByteSeq) : FS :=
  match fs with
  | [] => [(p, c)]
  | (q, d) :: rest => if q = p then (q, c) :: rest else (q, d) :: fsWrite rest p c

/-- Delete the file at path `p`. -/
def fsErase (fs : FS) (p : String) : FS :=
  match fs with
  | [] => []
  | (q, d) :: rest => if q = p then fsErase rest p else (q, d) :: fsErase rest p

/-- `Path.rename`: move the content of `src` to `dst`, removing `src`. -/
def fsRename (fs : FS) (src dst : String) : FS :=
  match fsLookup fs src with
  | none => fs
  | some c => fsWrite (fsErase fs src) dst c

/-- `models.DownloadStatus`. -/
inductive DownloadStatus
  | pending
  | downloading
  | completed
  | failed
  | paused
deriving DecidableEq, Repr

/-- `models.GameFile`, with the exact columns written by
`database.add_game_file` / `database.update_game_file`.  `datetime` /
`time.time()` values are modelled as rationals (`added_at`, `completed_at`)
or opaque strings (`last_modified`); `collection` and `file_format` carry
the `.value` strings of the source enums.  `size` is a rational because
the source stores an `int` there but `GameFile.formatted_size` divides the
field by `1024.0` in place, turning it into a float. -/
structure GameFile where
  url : String
  name : String
  size : Option ℚ := none
  parent_path : String := ""
  file_type : String := ""
  console : Option String := none
  region : Option String := none
  collection : String := "Unknown"
  collection_update_frequency : Option String := none
  file_format : Option String := none
  requires_conversion : Bool := false
  is_torrentzipped : Bool := false
  torrentzip_crc32 : Option String := none
  checksum : Option String := none
  checksum_type : Option String := none
  last_modified : Option String := none
  etag : Option String := none
  is_recent_upload : Bool := false
  status : DownloadStatus := .pending
  local_path : Option String := none
  bytes_downloaded : ℚ := 0
  download_attempts : Nat := 0
  error_message : Option String := none
  added_at : ℚ := 0
  completed_at : Option ℚ := none
  average_download_speed : Option ℚ := none
  is_speed_limited : Bool := false
deriving DecidableEq, Repr

/-- The fields of `config.MyrientConfig` consumed by the modelled download
engine (the remaining fields — timeouts, patterns, urls — do not influence
any of the embedded operations). -/
structure Config where
  download_root : String := "./downloads"
  verify_checksums : Bool := true
  resume_downloads : Bool := true
  max_attempts : Nat := 3
deriving DecidableEq, Repr

/-- Python `str.lower` on the ASCII strings appearing here (extensionally
`String.toLower`, written via `List.map` so that the kernel can evaluate
it on literals). -/
def strLower (s : String) : String := String.mk (s.data.map Char.toLower)

/-- Python `str.upper`, same remark as `strLower`. -/
def strUpper (s : String) : String := String.mk (s.data.map Char.toUpper)

/-- The final local path computed at the top of
`DownloadManager._download_file_impl`: the stored `local_path` if any,
otherwise `download_root / (console or "Unknown") / name`. -/
def effectiveLocalPath (cfg : Config) (g : GameFile) : String :=
  match g.local_path with
  | some p => p
  | none => cfg.download_root ++ "/" ++ (g.console.getD "Unknown") ++ "/" ++ g.name

/-- Result of one call to `_download_file_impl`: returned `True`, returned
`False`, or raised an exception carrying a message. -/
inductive ImplRes
  | ok
  | failed
  | raised (msg : String)
deriving DecidableEq, Repr

/-- Observable outcome of one `_download_file_impl` call.  Besides the
mutated record and filesystem it records the resume offset, the `Range`
header sent (if any), the byte sequence fed to the SHA-256 hasher, and the
number of bytes pulled over HTTP. -/
structure ImplOut where
  g : GameFile
  fs : FS
  res : ImplRes
  startPos : Nat
  rangeHeader : Option String
  hashed : ByteSeq
  httpBytes : Nat
deriving DecidableEq, Repr

/-- The guard of `downloader.py` lines 186-188 ("Check if file already
exists and is complete"): the final file exists and `game_file.size` is
truthy (non-`None`, non-zero) and equal to the on-disk size. -/
def existsCompleteCheck (fs : FS) (lp : String) (sz : Option ℚ) : Bool :=
  match fsLookup fs lp, sz with
  | some c, some s => decide (s ≠ 0 ∧ (c.length : ℚ) = s)
  | _, _ => false

/-- The `Range` header of lines 207-209: sent exactly when `start > 0`. -/
def mkRangeHeader (start : Nat) : Option String :=
  if start > 0 then some ("bytes=" ++ toString start ++ "-") else none

/-- The `except httpx.HTTPStatusError` handler for status 416 (lines
268-276): if the temp file exists and its size equals the truthy known
`size`, rename and succeed; otherwise re-raise. -/
def range416Out (fs : FS) (g : GameFile) (lp temp : String) (pref : ByteSeq) : ImplOut :=
  match fsLookup fs temp, g.size with
  | some tc, some s =>
    if s ≠ 0 ∧ (tc.length : ℚ) = s then
      { g := g, fs := fsRename fs temp lp, res := .ok, startPos := pref.length,
        rangeHeader := mkRangeHeader pref.length, hashed := pref, httpBytes := 0 }
    else
      { g := g, fs := fs, res := .raised "416 Range Not Satisfiable",
        startPos := pref.length, rangeHeader := mkRangeHeader pref.length,
        hashed := pref, httpBytes := 0 }
  | _, _ =>
      { g := g, fs := fs, res := .raised "416 Range Not Satisfiable",
        startPos := pref.length, rangeHeader := mkRangeHeader pref.length,
        hashed := pref, httpBytes := 0 }

/-- The "Verify download completion" guard of lines 250-251: `size` is
truthy and differs from `bytes_downloaded`. -/
def sizeFailCheck (g2 : GameFile) : Bool :=
  match g2.size with
  | some s => decide (s ≠ 0 ∧ g2.bytes_downloaded ≠ s)
  | none => false

/-- The "Verify checksum if available" step of lines 254-258: when
verification is on and the record's checksum is truthy, compare the
lower-cased hex digests and produce the error message on mismatch. -/
def mismatchMsg (cfg : Config) (H : ByteSeq → String) (hashed : ByteSeq)
    (chk : Option String) : Option String :=
  if cfg.verify_checksums then
    match chk with
    | some exp =>
      if exp ≠ "" then
        if strLower (H hashed) ≠ strLower exp then
          some ("Checksum mismatch: expected " ++ exp ++ ", got " ++ H hashed)
        else none
      else none
    | none => none
  else none

/-- The record as mutated during the streaming transfer (lines 217-237):
`body = serverContent.drop start` is served; when `start = 0` the
`Content-Length` becomes the `size`; `bytes_downloaded` ends at
`start + len(body)`. -/
def streamG2 (serverContent : ByteSeq) (g : GameFile) (pref : ByteSeq) : GameFile :=
  { (if pref.length = 0 then
       { g with size := some (((serverContent.drop pref.length).length : ℚ)) }
     else g) with
      bytes_downloaded :=
        ((pref.length + (serverContent.drop pref.length).length : Nat) : ℚ) }

/-- The streaming transfer of lines 211-266 for a non-416 response:
serve `body = serverContent.drop start`, record `Content-Length` as the
size when starting from scratch, append to the temp file, feed the hasher,
then run the size and checksum verifications and finally rename. -/
def streamOut (cfg : Config) (H : ByteSeq → String) (serverContent : ByteSeq)
    (fs : FS) (g : GameFile) (lp temp : String) (pref : ByteSeq) : ImplOut :=
  if sizeFailCheck (streamG2 serverContent g pref) then
    { g := streamG2 serverContent g pref,
      fs := fsWrite fs temp (pref ++ serverContent.drop pref.length),
      res := .failed, startPos := pref.length,
      rangeHeader := mkRangeHeader pref.length,
      hashed := pref ++ serverContent.drop pref.length,
      httpBytes := (serverContent.drop pref.length).length }
  else
    match mismatchMsg cfg H (pref ++ serverContent.drop pref.length)
        (streamG2 serverContent g pref).checksum with
    | some msg =>
      { g := { streamG2 serverContent g pref with error_message := some msg },
        fs := fsWrite fs temp (pref ++ serverContent.drop pref.length),
        res := .failed, startPos := pref.length,
        rangeHeader := mkRangeHeader pref.length,
        hashed := pref ++ serverContent.drop pref.length,
        httpBytes := (serverContent.drop pref.length).length }
    | none =>
      -- "Move temp file to final location"
      { g := streamG2 serverContent g pref,
        fs := fsRename (fsWrite fs temp (pref ++ serverContent.drop pref.length)) temp lp,
        res := .ok, startPos := pref.length,
        rangeHeader := mkRangeHeader pref.length,
        hashed := pref ++ serverContent.drop pref.length,
        httpBytes := (serverContent.drop pref.length).length }

/-- "Determine starting position for resumable download" (lines 190-204):
the existing temp content is resumed from (and pre-hashed) exactly when
the temp file exists and `resume_downloads` is set. -/
def resumePref (cfg : Config) (fs : FS) (temp : String) : ByteSeq :=
  if cfg.resume_downloads then (fsLookup fs temp).getD [] else []

/-- Shallow embedding of `DownloadManager._download_file_impl`
(`downloader.py` lines 175-276).  `serverContent` is the upstream blob at
`g.url`; the server model honours `Range: bytes=start-` by serving
`serverContent.drop start` with a `Content-Length` header, and answers
416 when a range request starts at or past the end of the blob.  `H` is
the SHA-256 hex digest as a function of all bytes fed to the hasher.

Python truthiness is translated explicitly: `if game_file.size and …`
requires `size = some s` with `s ≠ 0`, and the checksum comparison only
runs when `checksum` is a non-empty string. -/
def downloadFileImpl (cfg : Config) (H : ByteSeq → String) (serverContent : ByteSeq)
    (fs : FS) (g0 : GameFile) : ImplOut :=
  if existsCompleteCheck fs (effectiveLocalPath cfg g0) g0.size then
    { g := { g0 with local_path := some (effectiveLocalPath cfg g0) }, fs := fs,
      res := .ok, startPos := 0, rangeHeader := none, hashed := [], httpBytes := 0 }
  else
    if (resumePref cfg fs (effectiveLocalPath cfg g0 ++ ".part")).length > 0 ∧
        (resumePref cfg fs (effectiveLocalPath cfg g0 ++ ".part")).length ≥
          serverContent.length then
      range416Out fs { g0 with local_path := some (effectiveLocalPath cfg g0) }
        (effectiveLocalPath cfg g0) (effectiveLocalPath cfg g0 ++ ".part")
        (resumePref cfg fs (effectiveLocalPath cfg g0 ++ ".part"))
    else
      streamOut cfg H serverContent fs
        { g0 with local_path := some (effectiveLocalPath cfg g0) }
        (effectiveLocalPath cfg g0) (effectiveLocalPath cfg g0 ++ ".part")
        (resumePref cfg fs (effectiveLocalPath cfg g0 ++ ".part"))

/-- The completion update of `_download_with_retry` (lines 144-145):
status becomes `completed` and `completed_at = completed_at or time.time()`
— the Python `or` replaces a falsy value, i.e. `None` or the float `0`. -/
def completeStep (g : GameFile) (now : ℚ) : GameFile :=
  { g with status := .completed,
           completed_at :=
             match g.completed_at with
             | some t => if t = 0 then some now else some t
             | none => some now }

/-- Observable outcome of `_download_with_retry`: final record and
filesystem, the sequence of catalog writes (`update_game_file` calls),
the number of token-bucket takes, the number of attempts executed, the
HTTP traffic, and the returned boolean. -/
structure RetryOut where
  g : GameFile
  fs : FS
  dbTrace : List GameFile
  tokensTaken : Nat
  attempts : Nat
  httpBytes : Nat
  success : Bool
deriving DecidableEq, Repr

/-- Shallow embedding of the retry loop of
`DownloadManager._download_with_retry` (`downloader.py` lines 121-173).
`remaining` is the number of loop iterations left and `idx` the 0-based
attempt counter (`attempt` in the source).  Each iteration takes one
rate-limiter token, persists the `downloading` transition, and runs
`_download_file_impl`; a `False` return or an exception falls through to
the next attempt (after a backoff sleep, which has no further observable
effect here), and exhaustion marks the record `failed`.  The `remaining =
0` case is both the `max_attempts = 0` degenerate case and the
"All attempts failed" epilogue of the source. -/
def retryAux (cfg : Config) (H : ByteSeq → String) (serverContent : ByteSeq) (now : ℚ) :
    Nat → Nat → FS → GameFile → List GameFile → Nat → Nat → Nat → RetryOut
  | 0, _, fs, g, trace, tokens, attempts, bytes =>
      let gf : GameFile := { g with status := .failed }
      { g := gf, fs := fs, dbTrace := trace ++ [gf], tokensTaken := tokens,
        attempts := attempts, httpBytes := bytes, success := false }
  | remaining + 1, idx, fs, g, trace, tokens, attempts, bytes =>
      let gd : GameFile := { g with status := .downloading, download_attempts := idx + 1 }
      let trace1 := trace ++ [gd]
      let out := downloadFileImpl cfg H serverContent fs gd
      match out.res with
      | .ok =>
          let gc := completeStep out.g now
          { g := gc, fs := out.fs, dbTrace := trace1 ++ [gc],
            tokensTaken := tokens + 1, attempts := attempts + 1,
            httpBytes := bytes + out.httpBytes, success := true }
      | .failed =>
          retryAux cfg H serverContent now remaining (idx + 1) out.fs out.g trace1
            (tokens + 1) (attempts + 1) (bytes + out.httpBytes)
      | .raised msg =>
          retryAux cfg H serverContent now remaining (idx + 1) out.fs
            { out.g with error_message := some msg } trace1
            (tokens + 1) (attempts + 1) (bytes + out.httpBytes)

/-- `DownloadManager.download_file` / `_download_with_retry` entry point.
The global and per-host capacity limiters wrap the call without changing
any modelled observable, so the model goes straight to the retry loop. -/
def downloadWithRetry (cfg : Config) (H : ByteSeq → String) (serverContent : ByteSeq)
    (now : ℚ) (fs : FS) (g : GameFile) : RetryOut :=
  retryAux cfg H serverContent now cfg.max_attempts 0 fs g [] 0 0 0

/-! ## Token bucket (`downloader.TokenBucket`) -/

/-- `TokenBucket` state (`downloader.py` lines 17-25): `rate` tokens per
second, `capacity` = the `burst` constructor argument, the current `tokens`
(a Python float, hence `ℚ`), and the last-update instant from
`time.monotonic()`. -/
structure TokenBucket where
  rate : ℚ
  capacity : ℚ
  tokens : ℚ
  updated : ℚ
deriving DecidableEq, Repr

/-- `TokenBucket.__init__(rate, burst)` at monotonic instant `t0`. -/
def TokenBucket.mk0 (rate : ℚ) (burst : Nat) (t0 : ℚ) : TokenBucket :=
  { rate := rate, capacity := burst, tokens := burst, updated := t0 }

/-- The refill at the top of the `take` loop (lines 31-34):
`tokens ← min(capacity, tokens + (now − updated) · rate)`, `updated ← now`. -/
def tbRefill (b : TokenBucket) (now : ℚ) : TokenBucket :=
  { b with tokens := min b.capacity (b.tokens + (now - b.updated) * b.rate),
           updated := now }

/-- `TokenBucket.take` (lines 27-42) as a fueled loop.  `times i` is the
`time.monotonic()` reading at the i-th loop iteration; `fuel` bounds the
number of iterations observed.  A `none` result means the loop was still
running (sleeping `(n − tokens) / rate` and re-checking) after `fuel`
iterations. -/
def takeLoop (n : ℚ) (times : Nat → ℚ) : Nat → TokenBucket → Nat → Option TokenBucket
  | 0, _, _ => none
  | fuel + 1, b, i =>
      let b1 := tbRefill b (times i)
      if n ≤ b1.tokens then some { b1 with tokens := b1.tokens - n }
      else takeLoop n times fuel b1 (i + 1)

/-- A completed `take`: the monotonic instant at which the successful
refill-and-deduct happened, and the amount `n` deducted. -/
structure TakeEvent where
  time : ℚ
  amount : ℚ
deriving DecidableEq, Repr

/-- State change of one completed `take(n)`: refill at `e.time`, then
deduct `e.amount` (the success branch of the `take` loop). -/
def tbTakeStep (b : TokenBucket) (e : TakeEvent) : TokenBucket :=
  let b1 := tbRefill b e.time
  { b1 with tokens := b1.tokens - e.amount }

/-- A sequence of completed takes is consistent with the `take` loop:
monotonic time never runs backwards, and each take completed because the
refilled balance covered its amount (`if self.tokens >= n`). -/
def traceOK (b : TokenBucket) : List TakeEvent → Bool
  | [] => true
  | e :: rest =>
      decide (b.updated ≤ e.time) &&
      decide (e.amount ≤ (tbRefill b e.time).tokens) &&
      traceOK (tbTakeStep b e) rest

/-- Bucket state after a sequence of completed takes. -/
def runTrace (b : TokenBucket) : List TakeEvent → TokenBucket
  | [] => b
  | e :: rest => runTrace (tbTakeStep b e) rest

/-- Total number of tokens deducted by a sequence of takes. -/
def amountSum (evs : List TakeEvent) : ℚ :=
  (evs.map TakeEvent.amount).sum

/-! ## Size parsing (`crawler.MyrientCrawler._parse_file_size`) -/

/-- Python `str.isspace` characters relevant to `\s` and `str.strip`. -/
def isPySpace (c : Char) : Bool :=
  c = ' ' || c = '\t' || c = '\n' || c = '\x0d' || c = '\x0c' || c = '\x0b'

def isDigitChar (c : Char) : Bool := c.isDigit

def digitVal (c : Char) : Nat := c.toNat - '0'.toNat

/-- Numeric value of a digit string. -/
def digitsToNat (l : List Char) : Nat :=
  l.foldl (fun acc c => 10 * acc + digitVal c) 0

/-- Python `str.strip()` on a character list. -/
def pyStrip (l : List Char) : List Char :=
  ((l.dropWhile isPySpace).reverse.dropWhile isPySpace).reverse

/-- The regex `(\d+(?:\.\d+)?)\s*([KMGT]?B?)` applied with `re.match`
(anchored at the start only, no `$`).  Returns the numeric value of
group 1 as a numerator/denominator pair, group 2, and the unmatched
remainder of the input.  The pattern is deterministic: each optional
piece is taken greedily exactly when it can match. -/
def sizeRegexMatch (u : List Char) : Option (Nat × Nat × String × List Char) :=
  let ds := u.takeWhile isDigitChar
  if ds.isEmpty then none
  else
    let rest1 := u.drop ds.length
    let frPair : List Char × List Char :=
      match rest1 with
      | '.' :: r =>
          let fr := r.takeWhile isDigitChar
          if fr.isEmpty then ([], rest1) else (fr, r.drop fr.length)
      | _ => ([], rest1)
    let fr := frPair.1
    let rest2 := frPair.2
    let rest3 := rest2.dropWhile isPySpace
    let unitPair : List Char × List Char :=
      match rest3 with
      | c :: r => if c = 'K' ∨ c = 'M' ∨ c = 'G' ∨ c = 'T' then ([c], r) else ([], rest3)
      | [] => ([], [])
    let bPair : List Char × List Char :=
      match unitPair.2 with
      | 'B' :: r => (['B'], r)
      | _ => ([], unitPair.2)
    some (digitsToNat ds * 10 ^ fr.length + digitsToNat fr, 10 ^ fr.length,
      String.mk (unitPair.1 ++ bPair.1), bPair.2)

/-- The `multipliers` dictionary of `_parse_file_size`; `dict.get(unit, 1)`
is the `none → 1` fallback (note: a bare `"T"` is NOT in the dictionary). -/
def sizeMultiplier (unit : String) : Nat :=
  if unit = "B" then 1
  else if unit = "KB" then 1024
  else if unit = "MB" then 1024 ^ 2
  else if unit = "GB" then 1024 ^ 3
  else if unit = "TB" then 1024 ^ 4
  else if unit = "K" then 1024
  else if unit = "M" then 1024 ^ 2
  else if unit = "G" then 1024 ^ 3
  else 1

/-- Tail of a valid Python integer literal body: digits with single
underscores strictly between digits. -/
def pyDigitsTail : List Char → Bool
  | [] => true
  | '_' :: d :: rest => isDigitChar d && pyDigitsTail rest
  | '_' :: [] => false
  | c :: rest => isDigitChar c && pyDigitsTail rest

/-- Valid nonempty Python digit string (underscores allowed between digits). -/
def pyDigitsOK : List Char → Bool
  | [] => false
  | c :: rest => isDigitChar c && pyDigitsTail rest

/-- Python `int(str)`: optional surrounding whitespace, optional sign,
digits with optional single underscores; `ValueError` is `none`. -/
def pyIntOfString (l : List Char) : Option ℤ :=
  let t := pyStrip l
  let core : List Char → Option ℤ := fun r =>
    if pyDigitsOK r then some ((digitsToNat (r.filter (fun c => ¬ c = '_')) : ℤ))
    else none
  match t with
  | '+' :: r => core r
  | '-' :: r => (core r).map (fun z => -z)
  | r => core r

/-- Shallow embedding of `MyrientCrawler._parse_file_size` (`crawler.py`
lines 150-177): strip whitespace, remove commas, `re.match` the size
pattern against the upper-cased text (start-anchored only), multiply via
the `multipliers` dictionary with default 1, truncate to `int`; if the
regex does not match at the start, fall back to Python `int()`.
`float` multiplication is modelled exactly; every value settled below is
exactly representable, so the model and CPython agree on all of them. -/
def parse_file_size (s : String) : Option ℤ :=
  let t := (pyStrip s.data).filter (fun c => ¬ c = ',')
  let u := t.map Char.toUpper
  match sizeRegexMatch u with
  | some (num, den, g2, _) =>
      let unit := if g2 = "" then "B" else g2
      some ((num * sizeMultiplier unit) / den : Nat)
  | none => pyIntOfString t

/-- Modelled from the spec (§4.3): the size parser the specification
describes — strip commas, then a FULL case-insensitive match against
`^(\d+(\.\d+)?)\s*([KMGT]?B?)$`, with units B=1, K/KB=1024, M/MB=1024²,
G/GB=1024³, T/TB=1024⁴, empty unit = bytes, and `null` on any input that
does not match in full.  Used only to compare the implementation against
the specified behaviour. -/
def spec_parse_file_size (s : String) : Option ℤ :=
  let t := s.data.filter (fun c => ¬ c = ',')
  let u := t.map Char.toUpper
  match sizeRegexMatch u with
  | some (num, den, g2, rest) =>
      if rest.isEmpty then
        let mult : Nat :=
          if g2 = "" ∨ g2 = "B" then 1
          else if g2 = "K" ∨ g2 = "KB" then 1024
          else if g2 = "M" ∨ g2 = "MB" then 1024 ^ 2
          else if g2 = "G" ∨ g2 = "GB" then 1024 ^ 3
          else 1024 ^ 4
        some ((num * mult) / den : Nat)
      else none
  | none => none

/-! ## Classification (`crawler.MyrientCrawler`) -/

/-- `needle` matches at the head of `hay`. -/
def matchesAt : List Char → List Char → Bool
  | [], _ => true
  | _ :: _, [] => false
  | a :: as, b :: bs => a = b && matchesAt as bs

/-- Python `needle in hay` substring test on character lists. -/
def hasSub (needle : List Char) : List Char → Bool
  | [] => needle.isEmpty
  | c :: t => matchesAt needle (c :: t) || hasSub needle t

/-- `key in parent_lower` for strings. -/
def strContains (hay needle : String) : Bool :=
  hasSub needle.data hay.data

/-- The ordered `console_mappings` dictionary of
`MyrientCrawler._extract_console` (`crawler.py` lines 196-225); Python
dicts iterate in insertion order. -/
def consoleMappings : List (String × String) :=
  [("nintendo - game boy", "Game Boy"),
   ("nintendo - game boy advance", "Game Boy Advance"),
   ("nintendo - game boy color", "Game Boy Color"),
   ("nintendo - nintendo ds", "Nintendo DS"),
   ("nintendo - nintendo 3ds", "Nintendo 3DS"),
   ("nintendo - nintendo entertainment system", "NES"),
   ("nintendo - super nintendo entertainment system", "SNES"),
   ("nintendo - nintendo 64", "Nintendo 64"),
   ("nintendo - nintendo gamecube", "GameCube"),
   ("nintendo - wii", "Wii"),
   ("nintendo - wii u", "Wii U"),
   ("nintendo - switch", "Nintendo Switch"),
   ("sony - playstation", "PlayStation"),
   ("sony - playstation 2", "PlayStation 2"),
   ("sony - playstation 3", "PlayStation 3"),
   ("sony - playstation 4", "PlayStation 4"),
   ("sony - playstation portable", "PSP"),
   ("sony - playstation vita", "PS Vita"),
   ("sega - master system", "Master System"),
   ("sega - mega drive - genesis", "Genesis/Mega Drive"),
   ("sega - game gear", "Game Gear"),
   ("sega - saturn", "Saturn"),
   ("sega - dreamcast", "Dreamcast"),
   ("microsoft - xbox", "Xbox"),
   ("microsoft - xbox 360", "Xbox 360"),
   ("microsoft - xbox one", "Xbox One"),
   ("atari - 2600", "Atari 2600"),
   ("atari - 7800", "Atari 7800")]

/-- Vendor tokens of the fallback loop in `_extract_console`. -/
def vendorTokens : List String :=
  ["nintendo", "sony", "sega", "microsoft", "atari", "game boy", "playstation"]

/-- Python `str.split(sep)` for a single-character separator. -/
def splitOnChar (sep : Char) : List Char → List (List Char)
  | [] => [[]]
  | c :: cs =>
      if c = sep then [] :: splitOnChar sep cs
      else
        match splitOnChar sep cs with
        | [] => [[c]]
        | h :: t => (c :: h) :: t

/-- Python `str.replace(pat, rep)` (all non-overlapping occurrences, left
to right), with an explicit fuel equal to the input length. -/
def replaceSubAux (pat rep : List Char) : Nat → List Char → List Char
  | 0, s => s
  | _ + 1, [] => []
  | fuel + 1, c :: cs =>
      if pat ≠ [] ∧ matchesAt pat (c :: cs) then
        rep ++ replaceSubAux pat rep fuel (cs.drop (pat.length - 1))
      else c :: replaceSubAux pat rep fuel cs

def replaceSub (s pat rep : List Char) : List Char :=
  replaceSubAux pat rep s.length s

/-- Python `str.title()` restricted to ASCII: a cased character starting a
run of alphabetic characters is upper-cased, the rest lower-cased. -/
def titleCase : List Char → Bool → List Char
  | [], _ => []
  | c :: cs, prevAlpha =>
      (if c.isAlpha then (if prevAlpha then c.toLower else c.toUpper) else c)
        :: titleCase cs c.isAlpha

/-- Shallow embedding of `MyrientCrawler._extract_console` (`crawler.py`
lines 191-239) as a function of the already-extracted `parent_path`
(`_extract_parent_path` strips the base-URL path from the listing URL;
the claims below quantify over its output directly). -/
def extract_console (parent_path : String) : Option String :=
  let parentLower := (parent_path.data.map Char.toLower)
  match consoleMappings.find? (fun kv => hasSub kv.1.data parentLower) with
  | some kv => some kv.2
  | none =>
      let segments := splitOnChar '/' parent_path.data
      match segments.find? (fun seg =>
          vendorTokens.any (fun v => hasSub v.data (seg.map Char.toLower))) with
      | some seg =>
          some (String.mk (titleCase (replaceSub seg " - ".data " ".data) false))
      | none => none

/-- Keywords of the region regexes in `MyrientCrawler.__init__`
(`crawler.py` lines 23-26), excluding the `Rev \d+` alternative which is
handled separately. -/
def regionKeywords : List String :=
  ["USA", "Europe", "Japan", "World", "En", "Fr", "De", "Es", "It", "Pt",
   "Nl", "Sv", "No", "Da", "Fi", "Ru", "Ko", "Zh"]

/-- `Rev \d+` matches at the head of an (already lower-cased) list. -/
def revMatchesAt : List Char → Bool
  | 'r' :: 'e' :: 'v' :: ' ' :: d :: _ => d.isDigit
  | _ => false

/-- `Rev \d+` occurs somewhere in an (already lower-cased) list. -/
def hasRevSub : List Char → Bool
  | [] => false
  | c :: t => revMatchesAt (c :: t) || hasRevSub t

/-- The group body `[^X]*(?:KEYWORDS)[^X]*` matches `content` under
`re.IGNORECASE`: the content contains one of the region keywords or a
`Rev \d+` occurrence. -/
def containsRegionKeyword (content : List Char) : Bool :=
  let lower := content.map Char.toLower
  regionKeywords.any (fun k => hasSub (k.data.map Char.toLower) lower) ||
  hasRevSub lower

/-- Characters before the first occurrence of `stop`, or `none` if `stop`
never occurs. -/
def takeUntil (stop : Char) : List Char → Option (List Char)
  | [] => none
  | c :: cs => if c = stop then some [] else (takeUntil stop cs).map (c :: ·)

/-- `re.search` for the pattern `OPEN([^CLOSE]*(?:KEYWORDS)[^CLOSE]*)CLOSE`:
the leftmost opening character whose group — everything up to the next
closing character — contains a region keyword. -/
def searchRegionGroup (openC closeC : Char) : List Char → Option (List Char)
  | [] => none
  | c :: cs =>
      if c = openC then
        match takeUntil closeC cs with
        | some content =>
            if containsRegionKeyword content then some content
            else searchRegionGroup openC closeC cs
        | none => searchRegionGroup openC closeC cs
      else searchRegionGroup openC closeC cs

/-- Shallow embedding of `MyrientCrawler._extract_region` (`crawler.py`
lines 241-247): try the parenthesized pattern over the whole filename,
then the bracketed one. -/
def extract_region (filename : String) : Option String :=
  match searchRegionGroup '(' ')' filename.data with
  | some content => some (String.mk content)
  | none =>
      match searchRegionGroup '[' ']' filename.data with
      | some content => some (String.mk content)
      | none => none

/-- The final path component (after the last `/`), as used by
`pathlib.Path(filename)`. -/
def lastComponent (l : List Char) : List Char :=
  (splitOnChar '/' l).getLastD []

/-- `pathlib.PurePath.suffix`: `name[i:]` when `i = name.rfind('.')`
satisfies `0 < i < len(name) - 1`, else the empty string. -/
def pathSuffix (filename : String) : List Char :=
  let nm := lastComponent filename.data
  let i := (nm.reverse.takeWhile (fun c => ¬ c = '.')).length
  -- distance from the end to the last '.', when one exists
  if nm.reverse.length ≤ i then []
  else
    let idx := nm.length - 1 - i
    if 0 < idx ∧ idx < nm.length - 1 then nm.drop idx else []

/-- `Path(filename).suffix.lstrip('.').lower()` (`crawler.py` line 120). -/
def fileTypeOf (filename : String) : String :=
  String.mk (((pathSuffix filename).dropWhile (fun c => c = '.')).map Char.toLower)

/-- The `GameFile(...)` record constructed for a file row by
`MyrientCrawler._parse_directory_listing` (`crawler.py` lines 114-123):
only the seven listed fields are passed; everything else keeps the model
defaults of `models.GameFile` (in particular `collection = "Unknown"` and
`file_format = None`).  `parent_path` stands for
`_extract_parent_path(base_url)`, and `size` for the parsed size cell. -/
def mkListedGameFile (full_url filename parent_path : String) (size : Option ℤ) : GameFile :=
  { url := full_url,
    name := filename,
    size := size.map (fun z => (z : ℚ)),
    parent_path := parent_path,
    file_type := fileTypeOf filename,
    console := extract_console parent_path,
    region := extract_region filename }

/-! ## Catalog store (`database.Database`) and the crawl-time upsert -/

/-- The catalog: rows of the `game_files` table, keyed by `url`
(`url TEXT UNIQUE NOT NULL`). -/
abbrev DB := List GameFile

/-- `SELECT * FROM game_files WHERE url=?` (first matching row). -/
def dbLookup (db : DB) (u : String) : Option GameFile :=
  match db with
  | [] => none
  | r :: rest => if r.url = u then some r else dbLookup rest u

/-- `Database.add_game_file` (`database.py` lines 166-206): plain INSERT
of every column; a unique-URL collision raises `IntegrityError`, which is
caught and returned as `False` with the table unchanged. -/
def add_game_file (db : DB) (g : GameFile) : DB × Bool :=
  match dbLookup db g.url with
  | some _ => (db, false)
  | none => (db ++ [g], true)

/-- `Database.update_game_file` (`database.py` lines 242-278): UPDATE of
every column except `url` (the WHERE key) and `added_at` (absent from the
SET list) for all rows with the given url. -/
def update_game_file (db : DB) (g : GameFile) : DB :=
  db.map (fun r => if r.url = g.url then { g with added_at := r.added_at } else r)

/-- The crawl-time upsert of the cli crawl loop (`cli.py` lines 223-227):
`add_game_file`, and when that reports a collision and the update flag is
set, `update_game_file`.  Returns the new table and `was_added`. -/
def crawl_upsert (db : DB) (g : GameFile) (update : Bool) : DB × Bool :=
  let res := add_game_file db g
  if res.2 then (res.1, true)
  else if update then (update_game_file res.1 g, false)
  else (res.1, false)

/-! ## `models.GameFile.formatted_size` -/

/-- Banker's rounding of a rational to an integer (Python float → str
formatting rounds the exact binary value to nearest, ties to even; all
values reached below are exact binary floats, so `ℚ` matches). -/
def roundHalfEven (x : ℚ) : ℤ :=
  let f := Int.floor x
  let r := x - f
  if r < 1 / 2 then f
  else if 1 / 2 < r then f + 1
  else if f % 2 = 0 then f else f + 1

/-- Python `f"{v:.2f} {unit}"`. -/
def fmt2 (q : ℚ) (unit : String) : String :=
  let n := roundHalfEven (q * 100)
  let sign := if n < 0 then "-" else ""
  let m := n.natAbs
  sign ++ toString (m / 100) ++ "." ++
    (if m % 100 < 10 then "0" else "") ++ toString (m % 100) ++ " " ++ unit

/-- The unit loop of `formatted_size` (`models.py` lines 130-134): it
keeps dividing `self.size` by `1024.0` IN PLACE until the value drops
below 1024; returns the final value of `self.size` and the formatted
string. -/
def formattedSizeLoop : List String → ℚ → ℚ × String
  | [], q => (q, fmt2 q "PB")
  | u :: us, q => if q < 1024 then (q, fmt2 q u) else formattedSizeLoop us (q / 1024)

/-- Shallow embedding of the `GameFile.formatted_size` property
(`models.py` lines 124-134), including its mutation of `self.size`:
the result is the returned string together with the record as it stands
after the property ran. -/
def formatted_size (g : GameFile) : String × GameFile :=
  match g.size with
  | none => ("Unknown", g)
  | some q =>
      if q = 0 then ("Unknown", g)
      else
        let res := formattedSizeLoop ["B", "KB", "MB", "GB", "TB"] q
        (res.2, { g with size := some res.1 })

/-! ## Helper lemmas -/

theorem fsLookup_fsWrite (fs : FS) (p q : String) (c : ByteSeq) :
    fsLookup (fsWrite fs p c) q = if p = q then some c else fsLookup fs q := by
  induction fs with
  | nil => simp [fsWrite, fsLookup]
  | cons a rest ih =>
      obtain ⟨ap, ac⟩ := a
      by_cases hap : ap = p <;> by_cases haq : ap = q <;>
        simp_all [fsWrite, fsLookup]
      simp [Ne.symm hap]

theorem str_ne_append_part (p : String) : ¬ (p ++ ".part" = p) := by
  intro h
  have hl := congrArg String.length h
  rw [String.length_append] at hl
  have h5 : (".part" : String).length = 5 := rfl
  omega

theorem effectiveLocalPath_statusUpdate (cfg : Config) (g : GameFile)
    (st : DownloadStatus) (k : Nat) :
    effectiveLocalPath cfg { g with status := st, download_attempts := k } =
      effectiveLocalPath cfg g := rfl

/-! ## C9: `take(n)` with `n` above the bucket capacity never returns -/

/-- C9.  For every `n` strictly greater than the bucket capacity, and any
rate and any sequence of clock readings, `TokenBucket.take(n)` never
returns: every refill caps `tokens` at `capacity`, so `tokens ≥ n` never
holds and the loop runs forever (here: yields `none` for every amount of
fuel). -/
theorem take_over_capacity_never_returns (n : ℚ) (times : Nat → ℚ)
    (fuel i : Nat) (b : TokenBucket) (hn : b.capacity < n) :
    takeLoop n times fuel b i = none := by
  induction fuel generalizing b i with
  | zero => rfl
  | succ fuel ih =>
      have hle : (tbRefill b (times i)).tokens ≤ b.capacity := min_le_left _ _
      have hnot : ¬ n ≤ (tbRefill b (times i)).tokens := by
        intro hcontra
        exact absurd (le_trans hcontra hle) (not_le.mpr hn)
      simp only [takeLoop, if_neg hnot]
      exact ih (i + 1) (tbRefill b (times i)) (by simpa [tbRefill] using hn)

/-- Witness for C9 at a concrete bucket: capacity 3, `take(5)`. -/
theorem take_over_capacity_never_returns_witness :
    (TokenBucket.mk0 1 3 0).capacity < 5 ∧
      takeLoop 5 (fun _ => 0) 4 (TokenBucket.mk0 1 3 0) 0 = none :=
  ⟨by norm_num [TokenBucket.mk0],
   take_over_capacity_never_returns 5 (fun _ => 0) 4 0 (TokenBucket.mk0 1 3 0)
     (by norm_num [TokenBucket.mk0])⟩

/-! ## C5: token-bucket throughput bound over a window -/

theorem runTrace_cons (b : TokenBucket) (e : TakeEvent) (evs : List TakeEvent) :
    runTrace b (e :: evs) = runTrace (tbTakeStep b e) evs := rfl

theorem traceOK_cons_elim (b : TokenBucket) (e : TakeEvent) (evs : List TakeEvent)
    (h : traceOK b (e :: evs) = true) :
    b.updated ≤ e.time ∧ e.amount ≤ (tbRefill b e.time).tokens ∧
      traceOK (tbTakeStep b e) evs = true := by
  simp only [traceOK, Bool.and_eq_true, decide_eq_true_eq] at h
  exact ⟨h.1.1, h.1.2, h.2⟩

theorem runTrace_tokens_nonneg (evs : List TakeEvent) (b : TokenBucket) (e : TakeEvent)
    (hok : traceOK b (e :: evs) = true) : 0 ≤ (runTrace b (e :: evs)).tokens := by
  induction evs generalizing b e with
  | nil =>
      obtain ⟨-, h2, -⟩ := traceOK_cons_elim b e [] hok
      simp only [runTrace_cons, runTrace, tbTakeStep]
      linarith
  | cons e2 rest ih =>
      obtain ⟨-, -, h3⟩ := traceOK_cons_elim b e (e2 :: rest) hok
      exact ih (tbTakeStep b e) e2 h3

theorem amountSum_add_tokens_le (hi : ℚ) (evs : List TakeEvent) :
    ∀ (b : TokenBucket) (e : TakeEvent),
      traceOK b (e :: evs) = true → 0 ≤ b.rate →
      (∀ x ∈ e :: evs, x.time ≤ hi) →
      amountSum (e :: evs) + (runTrace b (e :: evs)).tokens ≤
        (tbRefill b e.time).tokens + b.rate * (hi - e.time) := by
  induction evs with
  | nil =>
      intro b e hok hrate htimes
      have he : e.time ≤ hi := htimes e (by simp)
      simp only [amountSum, List.map, List.sum_cons, List.sum_nil, runTrace_cons,
        runTrace, tbTakeStep]
      have : 0 ≤ b.rate * (hi - e.time) := mul_nonneg hrate (by linarith)
      linarith
  | cons e2 rest ih =>
      intro b e hok hrate htimes
      obtain ⟨-, -, htail⟩ := traceOK_cons_elim b e (e2 :: rest) hok
      obtain ⟨hmono, -, -⟩ := traceOK_cons_elim (tbTakeStep b e) e2 rest htail
      have hrate2 : 0 ≤ (tbTakeStep b e).rate := hrate
      have htimes2 : ∀ x ∈ e2 :: rest, x.time ≤ hi := by
        intro x hx
        exact htimes x (List.mem_cons_of_mem e hx)
      have hIH := ih (tbTakeStep b e) e2 htail hrate2 htimes2
      have hrefill2 : (tbRefill (tbTakeStep b e) e2.time).tokens ≤
          (tbTakeStep b e).tokens + (e2.time - e.time) * b.rate := by
        simp only [tbRefill, tbTakeStep]
        exact min_le_right _ _
      have hstep : (tbTakeStep b e).tokens = (tbRefill b e.time).tokens - e.amount := rfl
      have hsum : amountSum (e :: e2 :: rest) = e.amount + amountSum (e2 :: rest) := by
        simp [amountSum]
      have hrun : runTrace b (e :: e2 :: rest) = runTrace (tbTakeStep b e) (e2 :: rest) := rfl
      have hring : b.rate * (hi - e2.time) + (e2.time - e.time) * b.rate =
          b.rate * (hi - e.time) := by ring
      rw [hsum, hrun]
      have hrate3 : (tbTakeStep b e).rate = b.rate := rfl
      rw [hrate3] at hIH
      linarith

theorem length_le_amountSum (evs : List TakeEvent)
    (hamt : ∀ e ∈ evs, 1 ≤ e.amount) : (evs.length : ℚ) ≤ amountSum evs := by
  induction evs with
  | nil => simp [amountSum]
  | cons e rest ih =>
      have h1 := hamt e (by simp)
      have h2 := ih (fun x hx => hamt x (List.mem_cons_of_mem e hx))
      simp only [amountSum, List.map, List.sum_cons, List.length_cons] at h2 ⊢
      push_cast
      linarith

/-- C5.  For every wall-clock window `[lo, hi]`, the number of token-bucket
takes that complete within the window is at most
`capacity + ⌈rate · (hi − lo)⌉`: each completed `take(n)` refills the
balance by `min(capacity, tokens + elapsed·rate)` and deducts `n` only when
the refilled balance covers it (`traceOK`), which bounds the tokens spent
in the window by one full bucket plus the refill over the window length. -/
theorem token_bucket_window_bound (b : TokenBucket) (evs : List TakeEvent) (lo hi : ℚ)
    (hok : traceOK b evs = true) (hrate : 0 ≤ b.rate) (hcap : 0 ≤ b.capacity)
    (hwin : ∀ e ∈ evs, lo ≤ e.time ∧ e.time ≤ hi)
    (hamt : ∀ e ∈ evs, 1 ≤ e.amount) (hlh : lo ≤ hi) :
    (evs.length : ℚ) ≤ b.capacity + ((⌈b.rate * (hi - lo)⌉ : ℤ) : ℚ) := by
  have h0 : 0 ≤ b.rate * (hi - lo) := mul_nonneg hrate (by linarith)
  have hceil : b.rate * (hi - lo) ≤ ((⌈b.rate * (hi - lo)⌉ : ℤ) : ℚ) := Int.le_ceil _
  match evs with
  | [] =>
      simp only [List.length_nil, Nat.cast_zero]
      linarith
  | e :: rest =>
      have hlen := length_le_amountSum (e :: rest) hamt
      have htele := amountSum_add_tokens_le hi rest b e hok hrate
        (fun x hx => (hwin x hx).2)
      have hnn := runTrace_tokens_nonneg rest b e hok
      have hrefill : (tbRefill b e.time).tokens ≤ b.capacity := min_le_left _ _
      have helo : lo ≤ e.time := (hwin e (by simp)).1
      have hmul : b.rate * (hi - e.time) ≤ b.rate * (hi - lo) :=
        mul_le_mul_of_nonneg_left (by linarith) hrate
      have := htele
      linarith

/-- Witness for C5: one take of one token inside the window `[0, 1]`
against a bucket with rate 1 and burst 3. -/
theorem token_bucket_window_bound_witness :
    traceOK (TokenBucket.mk0 1 3 0) [⟨0, 1⟩] = true ∧
      (([(⟨0, 1⟩ : TakeEvent)].length : ℚ) ≤
        (TokenBucket.mk0 1 3 0).capacity +
          ((⌈(TokenBucket.mk0 1 3 0).rate * (1 - 0)⌉ : ℤ) : ℚ)) :=
  ⟨by norm_num [traceOK, tbRefill, TokenBucket.mk0],
   token_bucket_window_bound (TokenBucket.mk0 1 3 0) [⟨0, 1⟩] 0 1
     (by norm_num [traceOK, tbRefill, TokenBucket.mk0])
     (by norm_num [TokenBucket.mk0]) (by norm_num [TokenBucket.mk0])
     (by intro e he; simp at he; simp [he]) (by intro e he; simp at he; simp [he])
     (by norm_num)⟩

/-! ## Download engine lemmas -/

theorem fsLookup_fsRename_dst (fs : FS) (src dst : String) (c : ByteSeq)
    (h : fsLookup fs src = some c) :
    fsLookup (fsRename fs src dst) dst = some c := by
  simp [fsRename, h, fsLookup_fsWrite]

theorem effectiveLocalPath_of_some (cfg : Config) (g : GameFile) (lp : String)
    (h : g.local_path = some lp) : effectiveLocalPath cfg g = lp := by
  unfold effectiveLocalPath
  rw [h]

theorem existsCompleteCheck_of_none (fs : FS) (lp : String) (sz : Option ℚ)
    (h : fsLookup fs lp = none) : existsCompleteCheck fs lp sz = false := by
  unfold existsCompleteCheck
  rw [h]

theorem update_local_path_self (g : GameFile) (lp : String)
    (h : g.local_path = some lp) : ({ g with local_path := some lp } : GameFile) = g := by
  cases g
  simp_all

theorem completeStep_isSome (g : GameFile) (now : ℚ) :
    (completeStep g now).completed_at.isSome = true := by
  unfold completeStep
  cases h : g.completed_at
  · simp
  · simp only
    split <;> simp

theorem completeStep_size (g : GameFile) (now : ℚ) :
    (completeStep g now).size = g.size := rfl

theorem completeStep_bytes (g : GameFile) (now : ℚ) :
    (completeStep g now).bytes_downloaded = g.bytes_downloaded := rfl

theorem streamOut_ok_invariant (cfg : Config) (H : ByteSeq → String) (sc : ByteSeq)
    (fs : FS) (g : GameFile) (lp temp : String) (pref : ByteSeq)
    (hok : (streamOut cfg H sc fs g lp temp pref).res = .ok) :
    ∀ s : ℚ, (streamOut cfg H sc fs g lp temp pref).g.size = some s → s ≠ 0 →
      (∃ c, fsLookup (streamOut cfg H sc fs g lp temp pref).fs lp = some c ∧
        (c.length : ℚ) = s) ∧
      (streamOut cfg H sc fs g lp temp pref).g.bytes_downloaded = s := by
  generalize hout : streamOut cfg H sc fs g lp temp pref = out at hok ⊢
  unfold streamOut at hout
  split at hout
  case isTrue hfail => subst hout; simp at hok
  case isFalse hfail =>
    split at hout
    case h_1 msg hmsg => subst hout; simp at hok
    case h_2 hmsg =>
      subst hout
      intro s hs hs0
      simp only at hs ⊢
      have hbytes : (streamG2 sc g pref).bytes_downloaded = s := by
        by_contra hne
        apply hfail
        simp only [sizeFailCheck, hs]
        simp [hne, hs0]
      refine ⟨⟨pref ++ sc.drop pref.length, ?_, ?_⟩, hbytes⟩
      · exact fsLookup_fsRename_dst _ _ _ _ (by simp [fsLookup_fsWrite])
      · rw [← hbytes]
        simp [streamG2]

theorem range416Out_ok_invariant (fs : FS) (g : GameFile) (lp temp : String)
    (pref : ByteSeq)
    (hok : (range416Out fs g lp temp pref).res = .ok) :
    ∀ s : ℚ, (range416Out fs g lp temp pref).g.size = some s → s ≠ 0 →
      (∃ c, fsLookup (range416Out fs g lp temp pref).fs lp = some c ∧
        (c.length : ℚ) = s) ∧
      (range416Out fs g lp temp pref).g.bytes_downloaded = g.bytes_downloaded := by
  generalize hout : range416Out fs g lp temp pref = out at hok ⊢
  unfold range416Out at hout
  split at hout
  case h_1 tc s2 htc hsz =>
    split at hout
    case isTrue hcond =>
      subst hout
      intro s hs hs0
      simp only at hs ⊢
      rw [hsz] at hs
      obtain rfl : s2 = s := by injection hs
      exact ⟨⟨tc, fsLookup_fsRename_dst _ _ _ _ htc, hcond.2⟩, trivial⟩
    case isFalse hcond => subst hout; simp at hok
  case h_2 => subst hout; simp at hok

theorem impl_ok_invariant (cfg : Config) (H : ByteSeq → String) (sc : ByteSeq)
    (fs : FS) (g : GameFile)
    (hok : (downloadFileImpl cfg H sc fs g).res = .ok) :
    ∀ s : ℚ, (downloadFileImpl cfg H sc fs g).g.size = some s → s ≠ 0 →
      (∃ c, fsLookup (downloadFileImpl cfg H sc fs g).fs (effectiveLocalPath cfg g) = some c ∧
        (c.length : ℚ) = s) ∧
      ((downloadFileImpl cfg H sc fs g).g.bytes_downloaded = s ∨
       (downloadFileImpl cfg H sc fs g).g.bytes_downloaded = g.bytes_downloaded) := by
  generalize hout : downloadFileImpl cfg H sc fs g = out at hok ⊢
  unfold downloadFileImpl at hout
  split at hout
  case isTrue hEx =>
    subst hout
    intro s hs hs0
    simp only at hs ⊢
    unfold existsCompleteCheck at hEx
    split at hEx
    case h_1 c s2 hc hsz =>
      rw [hsz] at hs
      obtain rfl : s2 = s := by injection hs
      have hEx2 := of_decide_eq_true hEx
      exact ⟨⟨c, hc, hEx2.2⟩, Or.inr trivial⟩
    case h_2 => simp at hEx
  case isFalse hEx =>
    split at hout
    case isTrue h416 =>
      subst hout
      intro s hs hs0
      have h := range416Out_ok_invariant _ _ _ _ _ hok s hs hs0
      exact ⟨h.1, Or.inr h.2⟩
    case isFalse h416 =>
      subst hout
      intro s hs hs0
      have h := streamOut_ok_invariant _ _ _ _ _ _ _ _ hok s hs hs0
      exact ⟨h.1, Or.inl h.2⟩

theorem impl_mismatch_step (cfg : Config) (H : ByteSeq → String) (sc : ByteSeq)
    (fs : FS) (g : GameFile) (exp : String)
    (hver : cfg.verify_checksums = true)
    (hres : cfg.resume_downloads = false)
    (hchk : g.checksum = some exp)
    (hne : exp ≠ "")
    (hmm : strLower (H sc) ≠ strLower exp)
    (hfs : fsLookup fs (effectiveLocalPath cfg g) = none) :
    (downloadFileImpl cfg H sc fs g).res = .failed ∧
    (downloadFileImpl cfg H sc fs g).g.checksum = some exp ∧
    (downloadFileImpl cfg H sc fs g).g.error_message =
      some ("Checksum mismatch: expected " ++ exp ++ ", got " ++ H sc) ∧
    (downloadFileImpl cfg H sc fs g).g.local_path = some (effectiveLocalPath cfg g) ∧
    fsLookup (downloadFileImpl cfg H sc fs g).fs (effectiveLocalPath cfg g) = none := by
  have hpref : resumePref cfg fs (effectiveLocalPath cfg g ++ ".part") = [] := by
    simp [resumePref, hres]
  have hex := existsCompleteCheck_of_none fs (effectiveLocalPath cfg g) g.size hfs
  unfold downloadFileImpl
  rw [hex, hpref]
  simp only [Bool.false_eq_true, if_false, List.length_nil]
  have h416 : ¬((0 : Nat) > 0 ∧ (0 : Nat) ≥ sc.length) := by omega
  rw [if_neg h416]
  have hbytes : (streamG2 sc { g with local_path := some (effectiveLocalPath cfg g) }
      []).bytes_downloaded = ((sc.length : ℚ)) := by
    simp [streamG2]
  have hsize : (streamG2 sc { g with local_path := some (effectiveLocalPath cfg g) }
      []).size = some ((sc.length : ℚ)) := by
    simp [streamG2]
  have hsfail : sizeFailCheck (streamG2 sc
      { g with local_path := some (effectiveLocalPath cfg g) } []) = false := by
    unfold sizeFailCheck
    rw [hsize, hbytes]
    simp
  have hchk2 : (streamG2 sc { g with local_path := some (effectiveLocalPath cfg g) }
      []).checksum = some exp := by
    simp [streamG2, hchk]
  have hmsg : mismatchMsg cfg H ([] ++ sc.drop (0 : Nat))
      (streamG2 sc { g with local_path := some (effectiveLocalPath cfg g) } []).checksum =
      some ("Checksum mismatch: expected " ++ exp ++ ", got " ++ H sc) := by
    rw [hchk2]
    simp [mismatchMsg, hver, hne, hmm]
  unfold streamOut
  simp only [List.length_nil] at hsfail hmsg
  simp only [List.length_nil, hsfail, Bool.false_eq_true, if_false, hmsg]
  refine ⟨trivial, ?_, ?_, ?_, ?_⟩
  · simp [streamG2, hchk]
  · simp
  · simp [streamG2]
  · rw [fsLookup_fsWrite]
    rw [if_neg (str_ne_append_part _), hfs]

theorem retry_mismatch_aux (cfg : Config) (H : ByteSeq → String) (sc : ByteSeq) (now : ℚ)
    (exp : String)
    (hver : cfg.verify_checksums = true)
    (hres : cfg.resume_downloads = false)
    (hne : exp ≠ "")
    (hmm : strLower (H sc) ≠ strLower exp) :
    ∀ (remaining idx : Nat) (fs : FS) (g : GameFile) (trace : List GameFile)
      (tokens attempts bytes : Nat),
      g.checksum = some exp →
      fsLookup fs (effectiveLocalPath cfg g) = none →
      (retryAux cfg H sc now remaining idx fs g trace tokens attempts bytes).success = false ∧
      (retryAux cfg H sc now remaining idx fs g trace tokens attempts bytes).g.status = .failed ∧
      (retryAux cfg H sc now remaining idx fs g trace tokens attempts bytes).attempts =
        attempts + remaining ∧
      (retryAux cfg H sc now remaining idx fs g trace tokens attempts bytes).tokensTaken =
        tokens + remaining ∧
      fsLookup (retryAux cfg H sc now remaining idx fs g trace tokens attempts bytes).fs
        (effectiveLocalPath cfg g) = none ∧
      (retryAux cfg H sc now remaining idx fs g trace tokens attempts bytes).g.error_message =
        (if remaining = 0 then g.error_message
         else some ("Checksum mismatch: expected " ++ exp ++ ", got " ++ H sc)) := by
  intro remaining
  induction remaining with
  | zero =>
      intro idx fs g trace tokens attempts bytes hchk hfs
      exact ⟨rfl, rfl, rfl, rfl, hfs, rfl⟩
  | succ rem ih =>
      intro idx fs g trace tokens attempts bytes hchk hfs
      have hstep := impl_mismatch_step cfg H sc fs
        { g with status := .downloading, download_attempts := idx + 1 } exp
        hver hres hchk hne hmm hfs
      obtain ⟨hres1, hchk1, herr1, hlp1, hfs1⟩ := hstep
      have heff : effectiveLocalPath cfg
          (downloadFileImpl cfg H sc fs
            { g with status := .downloading, download_attempts := idx + 1 }).g =
          effectiveLocalPath cfg g :=
        effectiveLocalPath_of_some _ _ _ hlp1
      have hrec := ih (idx + 1)
        (downloadFileImpl cfg H sc fs
          { g with status := .downloading, download_attempts := idx + 1 }).fs
        (downloadFileImpl cfg H sc fs
          { g with status := .downloading, download_attempts := idx + 1 }).g
        (trace ++ [{ g with status := .downloading, download_attempts := idx + 1 }])
        (tokens + 1) (attempts + 1)
        (bytes + (downloadFileImpl cfg H sc fs
          { g with status := .downloading, download_attempts := idx + 1 }).httpBytes)
        hchk1 (by rw [heff]; exact hfs1)
      rw [heff] at hrec
      simp only [retryAux, hres1]
      refine ⟨hrec.1, hrec.2.1, ?_, ?_, hrec.2.2.2.2.1, ?_⟩
      · rw [hrec.2.2.1]; omega
      · rw [hrec.2.2.2.1]; omega
      · rw [hrec.2.2.2.2.2, herr1]
        by_cases hrem : rem = 0 <;> simp [hrem]

theorem impl_exists_step (cfg : Config) (H : ByteSeq → String) (sc : ByteSeq)
    (fs : FS) (g : GameFile) (lp : String) (c : ByteSeq) (s : ℚ)
    (hlp : g.local_path = some lp)
    (hfsc : fsLookup fs lp = some c)
    (hsz : g.size = some s) (hs0 : s ≠ 0) (hlen : (c.length : ℚ) = s) :
    downloadFileImpl cfg H sc fs g =
      { g := g, fs := fs, res := .ok, startPos := 0, rangeHeader := none,
        hashed := [], httpBytes := 0 } := by
  have heff : effectiveLocalPath cfg g = lp := effectiveLocalPath_of_some cfg g lp hlp
  have hex : existsCompleteCheck fs (effectiveLocalPath cfg g) g.size = true := by
    rw [heff, hsz]
    unfold existsCompleteCheck
    rw [hfsc]
    exact decide_eq_true ⟨hs0, hlen⟩
  unfold downloadFileImpl
  rw [hex]
  simp only [if_true]
  rw [heff, update_local_path_self g lp hlp]

theorem range416Out_obs (fs : FS) (g : GameFile) (lp temp : String) (pref : ByteSeq) :
    (range416Out fs g lp temp pref).startPos = pref.length ∧
    (range416Out fs g lp temp pref).rangeHeader = mkRangeHeader pref.length ∧
    (range416Out fs g lp temp pref).hashed = pref := by
  unfold range416Out
  split
  · split
    · exact ⟨rfl, rfl, rfl⟩
    · exact ⟨rfl, rfl, rfl⟩
  · exact ⟨rfl, rfl, rfl⟩

theorem streamOut_obs (cfg : Config) (H : ByteSeq → String) (sc : ByteSeq)
    (fs : FS) (g : GameFile) (lp temp : String) (pref : ByteSeq) :
    (streamOut cfg H sc fs g lp temp pref).startPos = pref.length ∧
    (streamOut cfg H sc fs g lp temp pref).rangeHeader = mkRangeHeader pref.length ∧
    (streamOut cfg H sc fs g lp temp pref).hashed = pref ++ sc.drop pref.length := by
  unfold streamOut
  split
  · exact ⟨rfl, rfl, rfl⟩
  · split
    · exact ⟨rfl, rfl, rfl⟩
    · exact ⟨rfl, rfl, rfl⟩

/-! ## C1: checksum mismatch handling -/

/-- C1 counterexample.  The claim says a post-transfer hash mismatch fails
the download terminally, with no further retry attempt for that record.
Concretely: a record with checksum `deadbeef` against a 3-byte blob whose
digest is `00`, under `max_attempts = 3` (the default) and
`resume_downloads = false`.  The engine runs THREE attempts (taking three
rate-limiter tokens), i.e. it retries the checksum mismatch twice before
giving up — refuting "no further retry attempt is made". -/
theorem checksum_mismatch_is_retried_cex :
    (downloadWithRetry { resume_downloads := false } (fun _ => "00") [1, 2, 3] 0 []
      { url := "u", name := "a", checksum := some "deadbeef" }).attempts = 3 ∧
    (downloadWithRetry { resume_downloads := false } (fun _ => "00") [1, 2, 3] 0 []
      { url := "u", name := "a", checksum := some "deadbeef" }).tokensTaken = 3 ∧
    (downloadWithRetry { resume_downloads := false } (fun _ => "00") [1, 2, 3] 0 []
      { url := "u", name := "a", checksum := some "deadbeef" }).g.status = .failed := by
  decide

/-- C1 (amended).  For a record with a non-null checksum and
`verify_checksums` on, a post-transfer hash mismatch fails the ATTEMPT
(not the download terminally): the engine retries it like any other
failure, and only after all `max_attempts` attempts have failed does the
status become `failed`; at that point `error_message` records both the
expected and the calculated hash, and the temp file was never renamed
(published) to `local_path` (shown here with `resume_downloads = false`,
under which every attempt re-transfers and re-hashes the same blob). -/
theorem checksum_mismatch_retry_then_terminal_fail (cfg : Config) (H : ByteSeq → String)
    (sc : ByteSeq) (now : ℚ) (fs : FS) (g : GameFile) (exp : String)
    (hver : cfg.verify_checksums = true)
    (hres : cfg.resume_downloads = false)
    (hchk : g.checksum = some exp)
    (hne : exp ≠ "")
    (hmm : strLower (H sc) ≠ strLower exp)
    (hfs : fsLookup fs (effectiveLocalPath cfg g) = none)
    (hmax : 0 < cfg.max_attempts) :
    (downloadWithRetry cfg H sc now fs g).success = false ∧
    (downloadWithRetry cfg H sc now fs g).g.status = .failed ∧
    (downloadWithRetry cfg H sc now fs g).attempts = cfg.max_attempts ∧
    (downloadWithRetry cfg H sc now fs g).g.error_message =
      some ("Checksum mismatch: expected " ++ exp ++ ", got " ++ H sc) ∧
    fsLookup (downloadWithRetry cfg H sc now fs g).fs (effectiveLocalPath cfg g) = none := by
  have h := retry_mismatch_aux cfg H sc now exp hver hres hne hmm
    cfg.max_attempts 0 fs g [] 0 0 0 hchk hfs
  unfold downloadWithRetry
  refine ⟨h.1, h.2.1, ?_, ?_, h.2.2.2.2.1⟩
  · rw [h.2.2.1]; omega
  · rw [h.2.2.2.2.2, if_neg (by omega)]

/-- Witness for C1 at a concrete record with checksum `ff` and digest
`aa`: the default 3-attempt run fails terminally without publishing. -/
theorem checksum_mismatch_retry_then_terminal_fail_witness :
    (downloadWithRetry { resume_downloads := false } (fun _ => "aa") [7] 0 []
      { url := "u", name := "b", checksum := some "ff" }).success = false ∧
    (downloadWithRetry { resume_downloads := false } (fun _ => "aa") [7] 0 []
      { url := "u", name := "b", checksum := some "ff" }).g.status = .failed ∧
    (downloadWithRetry { resume_downloads := false } (fun _ => "aa") [7] 0 []
      { url := "u", name := "b", checksum := some "ff" }).attempts =
      ({ resume_downloads := false } : Config).max_attempts ∧
    (downloadWithRetry { resume_downloads := false } (fun _ => "aa") [7] 0 []
      { url := "u", name := "b", checksum := some "ff" }).g.error_message =
      some ("Checksum mismatch: expected " ++ "ff" ++ ", got " ++ (fun _ => "aa") [7]) ∧
    fsLookup (downloadWithRetry { resume_downloads := false } (fun _ => "aa") [7] 0 []
      { url := "u", name := "b", checksum := some "ff" }).fs
      (effectiveLocalPath { resume_downloads := false }
        { url := "u", name := "b", checksum := some "ff" }) = none :=
  checksum_mismatch_retry_then_terminal_fail { resume_downloads := false }
    (fun _ => "aa") [7] 0 [] { url := "u", name := "b", checksum := some "ff" } "ff"
    rfl rfl rfl (by decide) (by decide) rfl (by decide)

/-! ## C3: the completed-state invariant -/

/-- C3 counterexample.  The claim says every ok path — including the path
where the final file already exists on disk — ends with
`bytes_downloaded = size`.  Concretely: a record with `size = 4` and
`bytes_downloaded = 0` whose final file already exists with 4 bytes; the
engine returns ok and marks it `completed`, but `bytes_downloaded` stays
0 ≠ 4, violating invariant I3 on that path. -/
theorem completed_without_bytes_update_cex :
    (downloadWithRetry {} (fun _ => "00") [] 0 [("d/f", [9, 9, 9, 9])]
      { url := "u", name := "f", size := some 4, local_path := some "d/f" }).g.status =
      .completed ∧
    (downloadWithRetry {} (fun _ => "00") [] 0 [("d/f", [9, 9, 9, 9])]
      { url := "u", name := "f", size := some 4, local_path := some "d/f" }).g.size =
      some 4 ∧
    (downloadWithRetry {} (fun _ => "00") [] 0 [("d/f", [9, 9, 9, 9])]
      { url := "u", name := "f", size := some 4, local_path := some "d/f"
        }).g.bytes_downloaded = 0 ∧
    ((0 : ℚ) = 4 → False) := by
  decide

/-- C3 (amended).  Whenever the engine is about to set `status = completed`
(the transfer routine returned ok and the completion step runs),
`completed_at` is set, and for a known non-zero `size` the file at
`local_path` exists with exactly that size; `bytes_downloaded` equals
`size` on the streaming ok path, but on the short-circuit ok paths (final
file already present, and 416-with-complete-temp) it is left at its prior
value, which may differ from `size`. -/
theorem completed_paths_invariant (cfg : Config) (H : ByteSeq → String) (sc : ByteSeq)
    (fs : FS) (g : GameFile) (now : ℚ)
    (hok : (downloadFileImpl cfg H sc fs g).res = .ok) :
    (completeStep (downloadFileImpl cfg H sc fs g).g now).status = .completed ∧
    (completeStep (downloadFileImpl cfg H sc fs g).g now).completed_at.isSome = true ∧
    (∀ s : ℚ, (completeStep (downloadFileImpl cfg H sc fs g).g now).size = some s →
      s ≠ 0 →
      (∃ c, fsLookup (downloadFileImpl cfg H sc fs g).fs (effectiveLocalPath cfg g) =
        some c ∧ (c.length : ℚ) = s) ∧
      ((completeStep (downloadFileImpl cfg H sc fs g).g now).bytes_downloaded = s ∨
       (completeStep (downloadFileImpl cfg H sc fs g).g now).bytes_downloaded =
         g.bytes_downloaded)) := by
  refine ⟨rfl, completeStep_isSome _ _, ?_⟩
  intro s hs hs0
  rw [completeStep_size] at hs
  simp only [completeStep_bytes]
  exact impl_ok_invariant cfg H sc fs g hok s hs hs0

/-- Witness for C3 at the already-exists input of the counterexample:
the ok hypothesis holds and the completion step yields `completed` with
`completed_at` set. -/
theorem completed_paths_invariant_witness :
    (downloadFileImpl {} (fun _ => "00") [] [("d/f", [9, 9, 9, 9])]
      { url := "u", name := "f", size := some 4, local_path := some "d/f" }).res = .ok ∧
    (completeStep (downloadFileImpl {} (fun _ => "00") [] [("d/f", [9, 9, 9, 9])]
      { url := "u", name := "f", size := some 4, local_path := some "d/f" }).g 0).status =
      .completed ∧
    (completeStep (downloadFileImpl {} (fun _ => "00") [] [("d/f", [9, 9, 9, 9])]
      { url := "u", name := "f", size := some 4, local_path := some "d/f" }).g
      0).completed_at.isSome = true :=
  ⟨by decide,
   (completed_paths_invariant {} (fun _ => "00") [] [("d/f", [9, 9, 9, 9])]
     { url := "u", name := "f", size := some 4, local_path := some "d/f" } 0
     (by decide)).1,
   (completed_paths_invariant {} (fun _ => "00") [] [("d/f", [9, 9, 9, 9])]
     { url := "u", name := "f", size := some 4, local_path := some "d/f" } 0
     (by decide)).2.1⟩

/-! ## C4: resumable transfer -/

/-- C4.  For every transfer where the temp `.part` file exists (holding a
prefix of the upstream blob) and `resume_downloads` is true, the transfer
starts at `start = size(temp)`, the existing temp content is pre-hashed
into the running SHA-256, the header `Range: bytes=start-` is sent exactly
when `start > 0`, and the byte sequence fed to the hasher at the end of
the transfer is the complete file content — hence the final digest equals
the SHA-256 of the complete file. -/
theorem resume_transfer_range_and_digest (cfg : Config) (H : ByteSeq → String)
    (sc : ByteSeq) (fs : FS) (g : GameFile) (p : ByteSeq)
    (hres : cfg.resume_downloads = true)
    (hlp : fsLookup fs (effectiveLocalPath cfg g) = none)
    (htemp : fsLookup fs (effectiveLocalPath cfg g ++ ".part") = some p)
    (hpref : p = sc.take p.length) :
    (downloadFileImpl cfg H sc fs g).startPos = p.length ∧
    (downloadFileImpl cfg H sc fs g).rangeHeader =
      (if 0 < p.length then some ("bytes=" ++ toString p.length ++ "-") else none) ∧
    (downloadFileImpl cfg H sc fs g).hashed = sc := by
  have hex := existsCompleteCheck_of_none fs (effectiveLocalPath cfg g) g.size hlp
  have hpr : resumePref cfg fs (effectiveLocalPath cfg g ++ ".part") = p := by
    simp [resumePref, hres, htemp]
  unfold downloadFileImpl
  rw [hex, hpr]
  simp only [Bool.false_eq_true, if_false]
  by_cases h416 : p.length > 0 ∧ p.length ≥ sc.length
  · rw [if_pos h416]
    have hfull : p = sc := by
      conv_lhs => rw [hpref]
      exact List.take_of_length_le h416.2
    obtain ⟨h1, h2, h3⟩ := range416Out_obs fs
      { g with local_path := some (effectiveLocalPath cfg g) }
      (effectiveLocalPath cfg g) (effectiveLocalPath cfg g ++ ".part") p
    exact ⟨h1, by rw [h2]; rfl, by rw [h3, hfull]⟩
  · rw [if_neg h416]
    obtain ⟨h1, h2, h3⟩ := streamOut_obs cfg H sc fs
      { g with local_path := some (effectiveLocalPath cfg g) }
      (effectiveLocalPath cfg g) (effectiveLocalPath cfg g ++ ".part") p
    refine ⟨h1, by rw [h2]; rfl, ?_⟩
    rw [h3]
    nth_rewrite 1 [hpref]
    exact List.take_append_drop p.length sc

/-- Witness for C4: a 2-byte temp against a 3-byte blob — the request is
`Range: bytes=2-` and the hasher is fed all 3 bytes. -/
theorem resume_transfer_range_and_digest_witness :
    (downloadFileImpl {} (fun _ => "00") [1, 2, 3]
      [("x.part", [1, 2])] { url := "u", name := "x", local_path := some "x" }).startPos =
      2 ∧
    (downloadFileImpl {} (fun _ => "00") [1, 2, 3]
      [("x.part", [1, 2])] { url := "u", name := "x", local_path := some "x"
        }).rangeHeader = some ("bytes=" ++ toString (2 : Nat) ++ "-") ∧
    (downloadFileImpl {} (fun _ => "00") [1, 2, 3]
      [("x.part", [1, 2])] { url := "u", name := "x", local_path := some "x" }).hashed =
      [1, 2, 3] := by
  have h := resume_transfer_range_and_digest {} (fun _ => "00") [1, 2, 3]
    [("x.part", [1, 2])] { url := "u", name := "x", local_path := some "x" } [1, 2]
    rfl (by decide) (by decide) (by decide)
  exact ⟨h.1, by rw [h.2.1]; decide, h.2.2⟩

/-! ## C6: downloading an already-completed record -/

/-- C6 counterexample.  The claim says `download(r)` on a completed record
is a no-op: no token taken, no observable state changed.  Concretely: a
completed record with `download_attempts = 5` whose file is on disk with
the right size.  The call returns ok but takes ONE token and rewrites the
catalog row, resetting `download_attempts` to 1 (with a transient
`downloading` write in between). -/
theorem download_completed_not_noop_cex :
    (downloadWithRetry {} (fun _ => "00") [1, 2, 3, 4] 0 [("d/x", [1, 2, 3, 4])]
      { url := "http://h/x", name := "x", size := some 4, local_path := some "d/x",
        status := .completed, download_attempts := 5,
        completed_at := some 7 }).success = true ∧
    (downloadWithRetry {} (fun _ => "00") [1, 2, 3, 4] 0 [("d/x", [1, 2, 3, 4])]
      { url := "http://h/x", name := "x", size := some 4, local_path := some "d/x",
        status := .completed, download_attempts := 5,
        completed_at := some 7 }).tokensTaken = 1 ∧
    (downloadWithRetry {} (fun _ => "00") [1, 2, 3, 4] 0 [("d/x", [1, 2, 3, 4])]
      { url := "http://h/x", name := "x", size := some 4, local_path := some "d/x",
        status := .completed, download_attempts := 5,
        completed_at := some 7 }).g.download_attempts = 1 ∧
    (downloadWithRetry {} (fun _ => "00") [1, 2, 3, 4] 0 [("d/x", [1, 2, 3, 4])]
      { url := "http://h/x", name := "x", size := some 4, local_path := some "d/x",
        status := .completed, download_attempts := 5,
        completed_at := some 7 }).dbTrace.length = 2 := by
  decide

/-- C6 (amended).  For a record in status `completed` whose file exists at
`local_path` with the known non-zero size, `download(r)` returns ok and
transfers no bytes and leaves the filesystem untouched — but it is NOT a
no-op: it takes one rate-limiter token and rewrites the catalog row twice
(a transient `downloading` write, then `completed` with
`download_attempts` reset to 1). -/
theorem download_completed_existing_file_effects (cfg : Config) (H : ByteSeq → String)
    (sc : ByteSeq) (now : ℚ) (fs : FS) (g : GameFile) (lp : String) (c : ByteSeq)
    (s tca : ℚ)
    (hstat : g.status = .completed)
    (hlp : g.local_path = some lp)
    (hfsc : fsLookup fs lp = some c)
    (hsz : g.size = some s) (hs0 : s ≠ 0) (hlen : (c.length : ℚ) = s)
    (hca : g.completed_at = some tca) (htca : tca ≠ 0)
    (hmax : 0 < cfg.max_attempts) :
    (downloadWithRetry cfg H sc now fs g).success = true ∧
    (downloadWithRetry cfg H sc now fs g).tokensTaken = 1 ∧
    (downloadWithRetry cfg H sc now fs g).attempts = 1 ∧
    (downloadWithRetry cfg H sc now fs g).httpBytes = 0 ∧
    (downloadWithRetry cfg H sc now fs g).fs = fs ∧
    (downloadWithRetry cfg H sc now fs g).g =
      { g with status := .completed, download_attempts := 1 } ∧
    (downloadWithRetry cfg H sc now fs g).dbTrace =
      [{ g with status := .downloading, download_attempts := 1 },
       { g with status := .completed, download_attempts := 1 }] := by
  obtain ⟨m, hm⟩ : ∃ m, cfg.max_attempts = m + 1 := ⟨cfg.max_attempts - 1, by omega⟩
  have hstep := impl_exists_step cfg H sc fs
    { g with status := .downloading, download_attempts := 1 } lp c s
    (by simpa using hlp) hfsc (by simpa using hsz) hs0 hlen
  have hcomp : completeStep
      ({ g with status := .downloading, download_attempts := 1 } : GameFile) now =
      { g with status := .completed, download_attempts := 1 } := by
    unfold completeStep
    cases g
    simp_all
  unfold downloadWithRetry
  rw [hm]
  simp only [retryAux, Nat.zero_add, hstep, hcomp]
  refine ⟨trivial, trivial, trivial, trivial, trivial, trivial, ?_⟩
  simp

/-- Witness for C6 at the record of the counterexample. -/
theorem download_completed_existing_file_effects_witness :
    (downloadWithRetry {} (fun _ => "11") [5] 0 [("d/y", [8, 8])]
      { url := "http://h/y", name := "y", size := some 2, local_path := some "d/y",
        status := .completed, download_attempts := 4,
        completed_at := some 3 }).success = true ∧
    (downloadWithRetry {} (fun _ => "11") [5] 0 [("d/y", [8, 8])]
      { url := "http://h/y", name := "y", size := some 2, local_path := some "d/y",
        status := .completed, download_attempts := 4,
        completed_at := some 3 }).tokensTaken = 1 ∧
    (downloadWithRetry {} (fun _ => "11") [5] 0 [("d/y", [8, 8])]
      { url := "http://h/y", name := "y", size := some 2, local_path := some "d/y",
        status := .completed, download_attempts := 4,
        completed_at := some 3 }).httpBytes = 0 :=
  ⟨(download_completed_existing_file_effects {} (fun _ => "11") [5] 0 [("d/y", [8, 8])]
      { url := "http://h/y", name := "y", size := some 2, local_path := some "d/y",
        status := .completed, download_attempts := 4, completed_at := some 3 }
      "d/y" [8, 8] 2 3 rfl rfl (by decide) rfl (by decide) (by decide) rfl
      (by decide) (by decide)).1,
   (download_completed_existing_file_effects {} (fun _ => "11") [5] 0 [("d/y", [8, 8])]
      { url := "http://h/y", name := "y", size := some 2, local_path := some "d/y",
        status := .completed, download_attempts := 4, completed_at := some 3 }
      "d/y" [8, 8] 2 3 rfl rfl (by decide) rfl (by decide) (by decide) rfl
      (by decide) (by decide)).2.1,
   (download_completed_existing_file_effects {} (fun _ => "11") [5] 0 [("d/y", [8, 8])]
      { url := "http://h/y", name := "y", size := some 2, local_path := some "d/y",
        status := .completed, download_attempts := 4, completed_at := some 3 }
      "d/y" [8, 8] 2 3 rfl rfl (by decide) rfl (by decide) (by decide) rfl
      (by decide) (by decide)).2.2.2.1⟩

/-! ## C2: the crawl-time upsert -/

theorem dbLookup_update (db : DB) (g row : GameFile)
    (h : dbLookup db g.url = some row) :
    dbLookup (update_game_file db g) g.url = some { g with added_at := row.added_at } := by
  induction db with
  | nil => simp [dbLookup] at h
  | cons r rest ih =>
      by_cases hr : r.url = g.url
      · rw [dbLookup, if_pos hr] at h
        obtain rfl : r = row := by injection h
        simp [update_game_file, dbLookup, hr]
      · rw [dbLookup, if_neg hr] at h
        have hrec := ih h
        simp only [update_game_file, List.map, if_neg hr] at hrec ⊢
        rw [dbLookup, if_neg hr]
        exact hrec

/-- C2 counterexample.  The claim says the crawl-time upsert leaves the
stored download-state fields (`status`, `bytes_downloaded`, `local_path`,
`completed_at`) unchanged.  Concretely: a completed stored row
(`status = completed`, 100 bytes, local path, completion time) re-crawled
as a fresh discovery record; after the upsert (with the update flag) the
stored row is back to `pending` with 0 bytes and no local path — the
download state is lost. -/
theorem upsert_existing_loses_download_state_cex :
    (add_game_file
      [{ url := "http://h/f.zip", name := "f.zip", status := .completed,
         bytes_downloaded := 100, local_path := some "d/f.zip",
         completed_at := some 5 }]
      { url := "http://h/f.zip", name := "f.zip" }).2 = false ∧
    (dbLookup (crawl_upsert
      [{ url := "http://h/f.zip", name := "f.zip", status := .completed,
         bytes_downloaded := 100, local_path := some "d/f.zip",
         completed_at := some 5 }]
      { url := "http://h/f.zip", name := "f.zip" } true).1
      "http://h/f.zip").map GameFile.status = some .pending ∧
    (dbLookup (crawl_upsert
      [{ url := "http://h/f.zip", name := "f.zip", status := .completed,
         bytes_downloaded := 100, local_path := some "d/f.zip",
         completed_at := some 5 }]
      { url := "http://h/f.zip", name := "f.zip" } true).1
      "http://h/f.zip").map GameFile.bytes_downloaded = some 0 ∧
    (dbLookup (crawl_upsert
      [{ url := "http://h/f.zip", name := "f.zip", status := .completed,
         bytes_downloaded := 100, local_path := some "d/f.zip",
         completed_at := some 5 }]
      { url := "http://h/f.zip", name := "f.zip" } true).1
      "http://h/f.zip").map GameFile.local_path = some none ∧
    (dbLookup (crawl_upsert
      [{ url := "http://h/f.zip", name := "f.zip", status := .completed,
         bytes_downloaded := 100, local_path := some "d/f.zip",
         completed_at := some 5 }]
      { url := "http://h/f.zip", name := "f.zip" } true).1
      "http://h/f.zip").map GameFile.completed_at = some none := by
  decide

/-- C2 (amended).  For a record whose URL already exists in the catalog,
the crawl-time upsert reports a non-added result without raising (the
unique-URL violation is caught), and — when the crawl was started with
the update flag — rewrites the stored row with ALL of the newly crawled
record's fields except `url` and `added_at`: the discovery fields are
written, but the download-state fields (`status`, `bytes_downloaded`,
`local_path`, `completed_at`) are OVERWRITTEN with the new record's
values rather than preserved. -/
theorem upsert_existing_reports_updated_and_overwrites (db : DB) (g row : GameFile)
    (hrow : dbLookup db g.url = some row) :
    (add_game_file db g).2 = false ∧
    (add_game_file db g).1 = db ∧
    dbLookup (crawl_upsert db g true).1 g.url =
      some { g with added_at := row.added_at } := by
  refine ⟨?_, ?_, ?_⟩
  · simp [add_game_file, hrow]
  · simp [add_game_file, hrow]
  · simp only [crawl_upsert, add_game_file, hrow]
    exact dbLookup_update db g row hrow

/-- Witness for C2 on a one-row catalog. -/
theorem upsert_existing_reports_updated_and_overwrites_witness :
    (add_game_file [{ url := "u1", name := "old", status := .completed }]
      { url := "u1", name := "new" }).2 = false ∧
    dbLookup (crawl_upsert [{ url := "u1", name := "old", status := .completed }]
      { url := "u1", name := "new" } true).1 "u1" =
      some { url := "u1", name := "new",
             added_at := ({ url := "u1", name := "old",
                            status := .completed } : GameFile).added_at } :=
  ⟨(upsert_existing_reports_updated_and_overwrites
      [{ url := "u1", name := "old", status := .completed }]
      { url := "u1", name := "new" }
      { url := "u1", name := "old", status := .completed } (by decide)).1,
   (upsert_existing_reports_updated_and_overwrites
      [{ url := "u1", name := "old", status := .completed }]
      { url := "u1", name := "new" }
      { url := "u1", name := "old", status := .completed } (by decide)).2.2⟩

/-! ## C7: classification of the SNES sample file -/

/-- C7 counterexample.  The claim says the emitted record for
`Super Mario World (USA).zip` under
`No-Intro/Nintendo - Super Nintendo Entertainment System` has
`collection = "No-Intro"` (inferred from the first path segment) and
`file_format = "zip"`.  The crawler never infers a collection (the field
keeps its `Unknown` default) and never sets `file_format` (it sets
`file_type` instead), so the emitted record has `collection = "Unknown"`
≠ `"No-Intro"` and `file_format = none`. -/
theorem classify_snes_collection_cex :
    (mkListedGameFile
      "https://myrient.erista.me/files/No-Intro/Nintendo - Super Nintendo Entertainment System/Super Mario World (USA).zip"
      "Super Mario World (USA).zip"
      "No-Intro/Nintendo - Super Nintendo Entertainment System"
      (some 524288)).collection = "Unknown" ∧
    ((mkListedGameFile
      "https://myrient.erista.me/files/No-Intro/Nintendo - Super Nintendo Entertainment System/Super Mario World (USA).zip"
      "Super Mario World (USA).zip"
      "No-Intro/Nintendo - Super Nintendo Entertainment System"
      (some 524288)).collection = "No-Intro" → False) ∧
    (mkListedGameFile
      "https://myrient.erista.me/files/No-Intro/Nintendo - Super Nintendo Entertainment System/Super Mario World (USA).zip"
      "Super Mario World (USA).zip"
      "No-Intro/Nintendo - Super Nintendo Entertainment System"
      (some 524288)).file_format = none := by
  decide

/-- C7 (amended).  For `Super Mario World (USA).zip` discovered under the
directory with `parent_path`
`No-Intro/Nintendo - Super Nintendo Entertainment System`, the emitted
record has `console = "SNES"` (per the mapping table) and
`region = "USA"`, and the lowercased extension `"zip"` is stored in the
`file_type` field; `collection` keeps its default `"Unknown"` (no
inference from the path is implemented) and `file_format` stays unset. -/
theorem classify_snes_fields :
    (mkListedGameFile
      "https://myrient.erista.me/files/No-Intro/Nintendo - Super Nintendo Entertainment System/Super Mario World (USA).zip"
      "Super Mario World (USA).zip"
      "No-Intro/Nintendo - Super Nintendo Entertainment System"
      (some 524288)).console = some "SNES" ∧
    (mkListedGameFile
      "https://myrient.erista.me/files/No-Intro/Nintendo - Super Nintendo Entertainment System/Super Mario World (USA).zip"
      "Super Mario World (USA).zip"
      "No-Intro/Nintendo - Super Nintendo Entertainment System"
      (some 524288)).region = some "USA" ∧
    (mkListedGameFile
      "https://myrient.erista.me/files/No-Intro/Nintendo - Super Nintendo Entertainment System/Super Mario World (USA).zip"
      "Super Mario World (USA).zip"
      "No-Intro/Nintendo - Super Nintendo Entertainment System"
      (some 524288)).file_type = "zip" ∧
    (mkListedGameFile
      "https://myrient.erista.me/files/No-Intro/Nintendo - Super Nintendo Entertainment System/Super Mario World (USA).zip"
      "Super Mario World (USA).zip"
      "No-Intro/Nintendo - Super Nintendo Entertainment System"
      (some 524288)).collection = "Unknown" ∧
    (mkListedGameFile
      "https://myrient.erista.me/files/No-Intro/Nintendo - Super Nintendo Entertainment System/Super Mario World (USA).zip"
      "Super Mario World (USA).zip"
      "No-Intro/Nintendo - Super Nintendo Entertainment System"
      (some 524288)).file_format = none := by
  decide

/-! ## C8: the size parser -/

/-- C8 counterexample.  The claim says the parser matches against the
END-anchored pattern `^(\d+(\.\d+)?)\s*([KMGT]?B?)$` and returns null for
every string that does not match in full.  Concretely: on `"12X"` the
specified parser (`spec_parse_file_size`, anchored) yields null, but the
implementation uses `re.match` without `$` and parses the prefix `12`,
returning 12. -/
theorem size_parser_not_anchored_cex :
    parse_file_size "12X" = some 12 ∧ spec_parse_file_size "12X" = none := by
  decide

/-- C8 (amended).  The size parser strips commas and matches the input
against the START-anchored pattern `(\d+(\.\d+)?)\s*([KMGT]?B?)` case-
insensitively — trailing text after the match is ignored, and a string
that does not match at the start falls back to Python `int()` before
yielding null.  Units map with powers of 1024 through the multiplier
dictionary, EXCEPT that a bare `T` is absent from it and falls to the
default multiplier 1.  The boundary examples hold:
`"1.5 GB"` → 1610612736, `"1024K"` → 1048576, `"-"` → null,
`"12,345"` → 12345; and the two quirks: `"12X"` → 12, `"5T"` → 5. -/
theorem size_parser_examples_and_quirks :
    parse_file_size "1.5 GB" = some 1610612736 ∧
    parse_file_size "1024K" = some 1048576 ∧
    parse_file_size "-" = none ∧
    parse_file_size "12,345" = some 12345 ∧
    parse_file_size "12X" = some 12 ∧
    parse_file_size "5T" = some 5 ∧
    spec_parse_file_size "5T" = some 5497558138880 := by
  decide

/-! ## C10: `formatted_size` mutates the record -/

/-- C10.  The claim says reading the `formatted_size` property leaves the
record unchanged.  It does not: the unit loop divides `self.size` by
`1024.0` in place, so a record with `size = 2048` renders `"2.00 KB"` and
comes out with `size = 2.0` — contradicting both the claim and the
field's own `Optional[int]` declaration.  This theorem evaluates the
embedded property at that failing input. -/
theorem formatted_size_mutates_record :
    (formatted_size { url := "u", name := "n", size := some 2048 }).1 = "2.00 KB" ∧
    (formatted_size { url := "u", name := "n", size := some 2048 }).2.size = some 2 ∧
    ((2048 : ℚ) = 2 → False) := by
  refine ⟨?_, ?_, by norm_num⟩
  · norm_num [formatted_size, formattedSizeLoop, fmt2, roundHalfEven]
    decide
  · norm_num [formatted_size, formattedSizeLoop, fmt2, roundHalfEven]

end MyrientDL
